import Mathlib

/-!
Shallow embedding of the salt state modules `_states/mailman.py` and
`_states/rbm_lvm.py`.

Each state function is modelled as a Lean function taking
  * the salt options (only the `test` flag matters),
  * an environment record supplying the value every query primitive
    returns at its call site and the truthiness every mutate primitive
    returns,
and producing the returned salt dictionary together with the ordered
trace of mutate-primitive invocations.  A Python exception escaping the
function is modelled by `Except.error`; the trace accumulated up to the
exception is still reported.
-/

namespace SaltModules

/-- The salt options dictionary; only `__opts__['test']` is read. -/
structure Opts where
  test : Bool
deriving DecidableEq, Repr

/-- Python exceptions that can escape the state functions. -/
inductive PyErr where
  /-- `KeyError` on a dictionary lookup. -/
  | keyError (k : String)
  /-- `TypeError` (e.g. `re.match` on `None`, iterating `None`). -/
  | typeError
  /-- `AttributeError` (e.g. `.group` on a failed `re.match`). -/
  | attributeError
  /-- `NameError` on an unbound local variable. -/
  | nameError (v : String)
deriving DecidableEq, Repr

/-- A value stored in the `changes` dictionary: the modules store either
strings or (for the lv resize path) integers. -/
inductive ChVal where
  | str (s : String)
  | nat (n : Nat)
deriving DecidableEq, Repr

/-- The dictionary returned by every state function:
`{'changes': {...}, 'comment': ..., 'name': ..., 'result': ...}`.
`result` is tri-state: `some true`, `some false`, or `none` (Python `None`).
`changes` is an insertion-ordered dictionary, modelled as an
association list. -/
structure SaltRet where
  changes : List (String × ChVal)
  comment : String
  name : String
  result : Option Bool
deriving DecidableEq, Repr

/-- Python dict assignment `d[k] = v`: replaces the value in place if the
key exists, otherwise appends the new entry. -/
def setChange (cs : List (String × ChVal)) (k : String) (v : ChVal) :
    List (String × ChVal) :=
  if (cs.find? (fun p => p.1 = k)).isSome then
    cs.map (fun p => if p.1 = k then (k, v) else p)
  else
    cs ++ [(k, v)]

/-- Python dict lookup `d.get(k)`. -/
def getChange (cs : List (String × ChVal)) (k : String) : Option ChVal :=
  (cs.find? (fun p => p.1 = k)).map (·.2)

/-- The mailman state's recording pattern:
`if k in changes: changes[k] += v  else: changes[k] = v`
(all values on this path are strings). -/
def appendStrChange (cs : List (String × ChVal)) (k v : String) :
    List (String × ChVal) :=
  match getChange cs k with
  | some (.str old) => setChange cs k (.str (old ++ v))
  | _ => setChange cs k (.str v)

/-- One mutate-primitive invocation, with the arguments the state
functions pass (keyword-argument pass-through is elided). -/
inductive MCall where
  | pvcreate (name : String)
  | pvremove (name : String)
  | vgcreate (name : String) (devices : Option (List String))
  | vgextend (name : String) (device : String)
  | vgremove (name : String)
  | lvcreate (name : String) (vgname : String) (size : Option String)
  | lvresize (size : String) (lvpath : String)
  | lvremove (name : String) (vgname : String)
  | addList (name : String)
  | removeList (name : String)
  | setListPassword (name : String) (password : String)
  | setOwner (name : String) (owners : List String)
  | addMember (name : String) (members : List String)
  | removeMember (name : String) (members : List String)
deriving DecidableEq, Repr

/-! ## Mailman state module (`_states/mailman.py`) -/

/-- The `owner` kwarg is accepted as a scalar or a list
(`if type(kwargs['owner']) == list`). -/
inductive OwnerArg where
  | scalar (s : String)
  | many (l : List String)
deriving DecidableEq, Repr

/-- The kwargs recognised by `mailman.list_present`.  A field being
`none` models the key being absent from `kwargs`; `explicitKey` models
`'explicit' in kwargs` (the code only tests key presence, never the
value). -/
structure ListKwargs where
  password : Option String := none
  owner : Option OwnerArg := none
  membersPresent : Option (List String) := none
  membersAbsent : Option (List String) := none
  explicitKey : Bool := false
deriving Repr

/-- Environment for one run of `mailman.list_present`: the truthiness
each primitive call returns, at each call site in source order.
`present₁` is the existence query at the top, `present₂` the re-query on
the `not list_present(name) and __opts__['test']` line.  `isMember₁`
serves the `members_present` step, `isMember₂` the `members_absent`
step, `listMembers₃` the `explicit` step (these are separate call
sites; mutations may happen in between). -/
structure MMEnv where
  present₁ : Bool
  addListOk : Bool
  present₂ : Bool
  checkPw : Bool
  setPwOk : Bool
  mmOwner : List String
  setOwnerOk : Bool
  isMember₁ : String → Bool
  addMemberOk : Bool
  isMember₂ : String → Bool
  removeMemberOk : Bool
  listMembers₃ : List String
  removeMemberOk₂ : Bool

/-- Models `email.utils.parseaddr(s)[1]` for the address shapes the
module feeds it: a bare address is returned unchanged, a
`Name <addr>` form yields the part between the angle brackets. -/
def pyParseaddrAddr (s : String) : String :=
  if s.data.contains '<' then
    String.mk (((s.data.dropWhile (· ≠ '<')).drop 1).takeWhile (· ≠ '>'))
  else s

/-- Python `list.remove(x)`: drop the first occurrence of `x`. -/
def pyRemoveFirst : List String → String → List String
  | [], _ => []
  | a :: t, x => if a = x then t else a :: pyRemoveFirst t x

/-- The owner-removal loop
`for owner in mm_owner: if not owner in salt_owner: mm_owner.remove(owner)`
with Python's index-based iterator semantics over the list being
mutated: the iterator index advances by one each step regardless of
removals, and stops once it reaches the current length.  `fuel` is an
upper bound on the number of iterations (the initial length suffices,
since the index grows by one per iteration and the list never grows). -/
def ownerRemoveLoop (salt : List String) :
    Nat → Nat → List String → Bool → List String × Bool
  | 0, _, lst, upd => (lst, upd)
  | fuel + 1, i, lst, upd =>
    if h : i < lst.length then
      let x := lst.get ⟨i, h⟩
      if x ∈ salt then ownerRemoveLoop salt fuel (i + 1) lst upd
      else ownerRemoveLoop salt fuel (i + 1) (pyRemoveFirst lst x) true
    else (lst, upd)

/-- The owner-append loop
`for owner in salt_owner: if not owner in mm_owner: mm_owner.append(owner)`. -/
def ownerAddLoop (salt : List String) (mm : List String) (upd : Bool) :
    List String × Bool :=
  salt.foldl (fun p o => if o ∈ p.1 then p else (p.1 ++ [o], true)) (mm, upd)

/-- Outcome of one reconciliation step: continue with the updated
dictionary, return it immediately (`return ret`), or raise.  Each step
carries only the trace entries it contributed. -/
inductive StepRes where
  | cont (ret : SaltRet) (tr : List MCall)
  | stop (ret : SaltRet) (tr : List MCall)
  | err (e : PyErr) (tr : List MCall)

/-- Sequencing of reconciliation steps; traces concatenate. -/
def thenStep (acc : StepRes) (f : SaltRet → StepRes) : StepRes :=
  match acc with
  | .cont r tr =>
    match f r with
    | .cont r' tr' => .cont r' (tr ++ tr')
    | .stop r' tr' => .stop r' (tr ++ tr')
    | .err e tr' => .err e (tr ++ tr')
  | x => x

/-- Convert the final step outcome to the function's return value. -/
def finalize (s : StepRes) : Except PyErr SaltRet × List MCall :=
  match s with
  | .cont r tr => (.ok r, tr)
  | .stop r tr => (.ok r, tr)
  | .err e tr => (.error e, tr)

/-- `list_present` step 1: existence check and creation. -/
def stepExistence (opts : Opts) (env : MMEnv) (name : String)
    (ret : SaltRet) : StepRes :=
  if !env.present₁ then
    if opts.test then
      .cont { ret with comment := "List " ++ name ++ " is set to be created",
                       result := none } []
    else if env.addListOk then
      .cont { ret with comment := "List " ++ name ++ " has been updated",
                       changes := setChange ret.changes "Add"
                         (.str ("List " ++ name ++ " has been created\n")) }
        [.addList name]
    else
      .stop { ret with comment := "Failed to create list " ++ name,
                       result := some false } [.addList name]
  else .cont ret []

/-- `list_present`: `if not list_present(name) and __opts__['test']: return ret`. -/
def stepTestReturn (opts : Opts) (env : MMEnv) (ret : SaltRet) : StepRes :=
  if !env.present₂ && opts.test then .stop ret [] else .cont ret []

/-- `list_present` password step. -/
def stepPassword (opts : Opts) (env : MMEnv) (name : String)
    (kw : ListKwargs) (ret : SaltRet) : StepRes :=
  match kw.password with
  | none => .cont ret []
  | some pw =>
    if !env.checkPw then
      if opts.test then
        .cont { ret with comment := "List " ++ name ++ " is set do be updated",
                         result := none } []
      else if env.setPwOk then
        .cont { ret with comment := "List " ++ name ++ " has been updated",
                         changes := setChange ret.changes "PW"
                           (.str "Password has been changed") }
          [.setListPassword name pw]
      else
        .stop { ret with comment := "Failed to list list " ++ name,
                         result := some false } [.setListPassword name pw]
    else .cont ret []

/-- The `if type(kwargs['owner']) == list` normalization. -/
def ownerArgList : OwnerArg → List String
  | .scalar s => [s]
  | .many l => l

/-- `list_present` owner step: the remove/append sync loops followed by
a whole-list `set_owner` when anything changed. -/
def stepOwner (opts : Opts) (env : MMEnv) (name : String)
    (kw : ListKwargs) (ret : SaltRet) : StepRes :=
  match kw.owner with
  | none => .cont ret []
  | some arg =>
    let salt_owner := ownerArgList arg
    let p₁ := ownerRemoveLoop salt_owner env.mmOwner.length 0 env.mmOwner false
    let p₂ := ownerAddLoop salt_owner p₁.1 p₁.2
    if p₂.2 then
      if opts.test then
        .cont { ret with comment := "List " ++ name ++ " is set do be updated",
                         result := none } []
      else if env.setOwnerOk then
        .cont { ret with comment := "List " ++ name ++ " has been updated",
                         changes := setChange ret.changes "Owner"
                           (.str ("Owner has been changed:\n" ++
                             String.intercalate "\n" p₂.1)) }
          [.setOwner name p₂.1]
      else
        .stop { ret with comment := "Failed to list list " ++ name,
                         result := some false } [.setOwner name p₂.1]
    else .cont ret []

/-- `list_present` members_present step. -/
def stepMembersPresent (opts : Opts) (env : MMEnv) (name : String)
    (kw : ListKwargs) (ret : SaltRet) : StepRes :=
  match kw.membersPresent with
  | none => .cont ret []
  | some ms =>
    let members_add := ms.filter (fun m => !env.isMember₁ m)
    if members_add.length > 0 then
      if opts.test then
        .cont { ret with comment := "List " ++ name ++ " is set do be updated",
                         result := none,
                         changes := members_add.foldl
                           (fun cs m => appendStrChange cs "Subscribed" (m ++ "\n"))
                           ret.changes } []
      else if env.addMemberOk then
        .cont { ret with comment := "List " ++ name ++ " has been updated",
                         changes := members_add.foldl
                           (fun cs m => appendStrChange cs "Subscribed" (m ++ "\n"))
                           ret.changes }
          [.addMember name members_add]
      else
        .stop { ret with result := some false,
                         comment := "Failed to add new members" }
          [.addMember name members_add]
    else .cont ret []

/-- `list_present` members_absent step. -/
def stepMembersAbsent (opts : Opts) (env : MMEnv) (name : String)
    (kw : ListKwargs) (ret : SaltRet) : StepRes :=
  match kw.membersAbsent with
  | none => .cont ret []
  | some ms =>
    let members_del := ms.filter (fun m => env.isMember₂ m)
    if members_del.length > 0 then
      if opts.test then
        .cont { ret with comment := "List " ++ name ++ " is set do be updated",
                         result := none,
                         changes := members_del.foldl
                           (fun cs m => appendStrChange cs "Unsubscribed" (m ++ "\n"))
                           ret.changes } []
      else if env.removeMemberOk then
        .cont { ret with comment := "List " ++ name ++ " has been updated",
                         changes := members_del.foldl
                           (fun cs m => appendStrChange cs "Unsubscribed" (m ++ "\n"))
                           ret.changes }
          [.removeMember name members_del]
      else
        .stop { ret with result := some false,
                         comment := "Failed to remove members" }
          [.removeMember name members_del]
    else .cont ret []

/-- `list_present` explicit step: note the unguarded
`kwargs['members_present']` lookup, which raises `KeyError` when the
key is absent. -/
def stepExplicit (opts : Opts) (env : MMEnv) (name : String)
    (kw : ListKwargs) (ret : SaltRet) : StepRes :=
  if kw.explicitKey then
    match kw.membersPresent with
    | none => .err (.keyError "members_present") []
    | some ms =>
      let salt_list := ms.map pyParseaddrAddr
      let del_list := env.listMembers₃.filter (fun a => !salt_list.contains a)
      if del_list.length > 0 then
        if opts.test then
          .cont { ret with comment := "List " ++ name ++ " is set do be updated",
                           result := none,
                           changes := del_list.foldl
                             (fun cs m => appendStrChange cs "Unsubscribed"
                               (m ++ " (explicit flag)\n")) ret.changes } []
        else if env.removeMemberOk₂ then
          .cont { ret with comment := "List " ++ name ++ " has been updated",
                           changes := del_list.foldl
                             (fun cs m => appendStrChange cs "Unsubscribed"
                               (m ++ " (explicit flag)\n")) ret.changes }
            [.removeMember name del_list]
        else
          .stop { ret with result := some false,
                           comment := "Failed to remove members" }
            [.removeMember name del_list]
      else .cont ret []
  else .cont ret []

/-- `mailman.list_present` from `_states/mailman.py`. -/
def mailmanListPresent (opts : Opts) (env : MMEnv) (name : String)
    (kw : ListKwargs) : Except PyErr SaltRet × List MCall :=
  let ret₀ : SaltRet :=
    { changes := [],
      comment := "List " ++ name ++ " is in the correct state",
      name := name,
      result := some true }
  finalize
    (thenStep (thenStep (thenStep (thenStep (thenStep
      (thenStep (stepExistence opts env name ret₀)
        (stepTestReturn opts env))
      (stepPassword opts env name kw))
      (stepOwner opts env name kw))
      (stepMembersPresent opts env name kw))
      (stepMembersAbsent opts env name kw))
      (stepExplicit opts env name kw))

/-! ## LVM state module (`_states/rbm_lvm.py`) -/

/-- Environment for `pv_present`: truthiness of the two `pvdisplay`
queries and the value returned by `pvcreate` (stored into
`changes['created']`). -/
structure PVEnv where
  display₁ : Bool
  createChanges : String
  display₂ : Bool
deriving Repr

/-- `rbm_lvm.pv_present`. -/
def pvPresent (opts : Opts) (env : PVEnv) (name : String) :
    SaltRet × List MCall :=
  let ret : SaltRet := { changes := [], comment := "", name := name,
                         result := some true }
  if env.display₁ then
    ({ ret with comment := "Physical Volume " ++ name ++ " already present" }, [])
  else if opts.test then
    ({ ret with comment := "Physical Volume " ++ name ++ " is set to be created",
                result := none }, [])
  else if env.display₂ then
    ({ ret with comment := "Created Physical Volume " ++ name,
                changes := [("created", .str env.createChanges)] },
      [.pvcreate name])
  else
    ({ ret with comment := "Failed to create Physical Volume " ++ name,
                result := some false }, [.pvcreate name])

/-- The `devices` parameter of `vg_present`: Python `None`, a
comma-separated string, or a list. -/
inductive DevArg where
  | noneArg
  | commaStr (s : String)
  | devs (l : List String)
deriving DecidableEq, Repr

/-- The value of `devices` after the
`isinstance(devices, six.string_types)` split; `none` is Python `None`. -/
def devList : DevArg → Option (List String)
  | .noneArg => none
  | .commaStr s => some (s.splitOn ",")
  | .devs l => some l

/-- Environment for `vg_present`.  `pvQuery₁ realdev` is
`pvdisplay(realdev, real=True)` restricted to the owning volume-group
name of `realdev` (`none` when `pvs` is falsy or lacks the key);
`pvQuery₂` is the re-query after `vgextend`. -/
structure VGEnv where
  display₁ : Bool
  realpath : String → String
  pvQuery₁ : String → Option String
  pvQuery₂ : String → Option String
  createChanges : String
  display₂ : Bool

/-- The per-device membership loop of `vg_present` (the `for device in
devices` body, run when the volume group already exists).  The
unguarded `pvs[realdev][...]` lookup after `vgextend` raises when the
re-query has no record. -/
def vgDeviceLoop (env : VGEnv) (name : String) :
    List String → SaltRet → List MCall → Except PyErr SaltRet × List MCall
  | [], ret, tr => (.ok ret, tr)
  | device :: rest, ret, tr =>
    let realdev := env.realpath device
    match env.pvQuery₁ realdev with
    | some g =>
      if g = name then
        vgDeviceLoop env name rest
          { ret with comment :=
              ret.comment ++ "\n" ++ (device ++ " is part of Volume Group") } tr
      else if g = "#orphans_lvm2" then
        let tr' := tr ++ [.vgextend name device]
        match env.pvQuery₂ realdev with
        | some g₂ =>
          if g₂ = name then
            vgDeviceLoop env name rest
              { ret with changes :=
                  setChange ret.changes device (.str ("added to " ++ name)) } tr'
          else
            let c := ret.comment ++ "\n" ++ (device ++ " could not be added")
            vgDeviceLoop env name rest
              { ret with comment := c, result := some false } tr'
        | none => (.error (.keyError realdev), tr')
      else
        let c := ret.comment ++ "\n" ++ (device ++ " is part of " ++ g)
        vgDeviceLoop env name rest
          { ret with comment := c, result := some false } tr
    | none =>
      let c := ret.comment ++ "\n" ++ ("pv " ++ device ++ " is not present")
      vgDeviceLoop env name rest
        { ret with comment := c, result := some false } tr

/-- `rbm_lvm.vg_present`. -/
def vgPresent (opts : Opts) (env : VGEnv) (name : String)
    (devices : DevArg) : Except PyErr SaltRet × List MCall :=
  let ret : SaltRet := { changes := [], comment := "", name := name,
                         result := some true }
  if env.display₁ then
    let ret := { ret with
      comment := "Volume Group " ++ name ++ " already present" }
    match devList devices with
    | some ds => vgDeviceLoop env name ds ret []
    | none => (.error .typeError, [])
  else if opts.test then
    (.ok { ret with comment := "Volume Group " ++ name ++ " is set to be created",
                    result := none }, [])
  else
    let tr := [MCall.vgcreate name (devList devices)]
    if env.display₂ then
      (.ok { ret with comment := "Created Volume Group " ++ name,
                      changes := [("created", .str env.createChanges)] }, tr)
    else
      (.ok { ret with comment := "Failed to create Volume Group " ++ name,
                      result := some false }, tr)

/-! ### Size parsing in `lv_present` -/

/-- `int(...)` on a decimal digit string (the value of the regex's
first capture group). -/
def charsVal (l : List Char) : Nat :=
  l.foldl (fun a c => 10 * a + (c.toNat - 48)) 0

/-- `re.match("([0-9]+)([A-Za-z])", size)` followed by reading the two
groups: a maximal (greedy) non-empty digit prefix, then one ASCII
letter.  `none` models a failed match (whereupon `.group` raises). -/
def matchSizeRe (cs : List Char) : Option (Nat × Char) :=
  let ds := cs.takeWhile Char.isDigit
  let rest := cs.dropWhile Char.isDigit
  if ds.isEmpty then none
  else
    match rest with
    | c :: _ => if c.isAlpha then some (charsVal ds, c) else none
    | [] => none

/-- The size-to-kB conversion block of `lv_present`: three independent
`if`s on the unit letter; any other letter leaves `size_numerical`
unbound, so the subsequent use raises `NameError`. -/
def lvSizeNumerical (s : String) : Except PyErr Nat :=
  match matchSizeRe s.data with
  | none => .error .attributeError
  | some (v, c) =>
    if c = 'T' then .ok (v * 1024 * 1024 * 1024)
    else if c = 'G' then .ok (v * 1024 * 1024)
    else if c = 'M' then .ok (v * 1024)
    else .error (.nameError "size_numerical")

/-- Environment for `lv_present`: truthiness of the `lvdisplay`
queries, the integer fields read from the display dictionaries, and the
`lvcreate` return value. -/
structure LVEnv where
  lvdisplay₁ : Bool
  lvExtents₁ : Nat
  peSize : Nat
  lvExtents₂ : Nat
  createChanges : String
  lvdisplay₂ : Bool
deriving Repr

/-- `rbm_lvm.lv_present`.  `allow_resize` is accepted and ignored, as
in the source (the resize path runs whenever the volume exists and is
smaller than the parsed size).  `ret['name']` keeps the original
`name`; the comments use the post-snapshot-swap name. -/
def lvPresent (opts : Opts) (env : LVEnv) (name vgname : String)
    (size snapshot : Option String) (thinvolume : Bool)
    (allow_resize : Bool) : Except PyErr SaltRet × List MCall :=
  let ret : SaltRet := { changes := [], comment := "", name := name,
                         result := some true }
  let nm := match snapshot with
    | some s => s
    | none => name
  let lvpath :=
    if thinvolume then
      "/dev/" ++ ((vgname.splitOn "/").headD "") ++ "/" ++ nm
    else
      "/dev/" ++ vgname ++ "/" ++ nm
  if env.lvdisplay₁ then
    let lvsize := env.lvExtents₁ * env.peSize
    match size with
    | none => (.error .typeError, [])
    | some s =>
      match lvSizeNumerical s with
      | .error e => (.error e, [])
      | .ok size_numerical =>
        if lvsize < size_numerical then
          let tr := [MCall.lvresize s lvpath]
          let lvsize₂ := env.lvExtents₂ * env.peSize
          if lvsize₂ = size_numerical then
            (.ok { ret with
                comment := "Logical Volume " ++ nm ++ " has been extended to " ++ s,
                changes := setChange (setChange ret.changes "old" (.nat lvsize))
                  "new" (.nat lvsize₂) }, tr)
          else
            (.ok { ret with
                comment := "Logical Volume " ++ nm ++
                  " already present and could not get resized",
                result := some false }, tr)
        else
          (.ok { ret with
              comment := "Logical Volume " ++ nm ++ " already present" }, [])
  else if opts.test then
    (.ok { ret with comment := "Logical Volume " ++ nm ++ " is set to be created",
                    result := none }, [])
  else
    let tr := [MCall.lvcreate nm vgname size]
    if env.lvdisplay₂ then
      (.ok { ret with comment := "Created Logical Volume " ++ nm,
                      changes := [("created", .str env.createChanges)] }, tr)
    else
      (.ok { ret with comment := "Failed to create Logical Volume " ++ nm,
                      result := some false }, tr)

/-! ### Decimal representation (Python `str(n)`) -/

/-- The decimal digit character for `n < 10`. -/
def digitChar (n : Nat) : Char := Char.ofNat (48 + n)

/-- Decimal digit list of a natural number, most significant first:
Python's `str(n)` for non-negative `n`. -/
def toDec (n : Nat) : List Char :=
  if h : n < 10 then [digitChar n]
  else toDec (n / 10) ++ [digitChar (n % 10)]
termination_by n
decreasing_by
  exact Nat.div_lt_self (Nat.lt_of_lt_of_le (by decide) (Nat.le_of_not_lt h))
    (by decide)

/-- Python `str(n)` for a non-negative integer. -/
def pyStr (n : Nat) : String := String.mk (toDec n)

/-! ## Sequencing lemmas -/

theorem thenStep_cont_nil (r : SaltRet) (f : SaltRet → StepRes) :
    thenStep (.cont r []) f = f r := by
  unfold thenStep
  cases h : f r <;> simp [h]

theorem thenStep_stop (r : SaltRet) (tr : List MCall) (f : SaltRet → StepRes) :
    thenStep (.stop r tr) f = .stop r tr := rfl

theorem thenStep_err (e : PyErr) (tr : List MCall) (f : SaltRet → StepRes) :
    thenStep (.err e tr) f = .err e tr := rfl

/-! ## Decimal representation and size parsing lemmas -/

theorem digitChar_isDigit : ∀ k, k < 10 → (digitChar k).isDigit = true := by decide

theorem digitChar_val : ∀ k, k < 10 → (digitChar k).toNat - 48 = k := by decide

theorem toDec_ne_nil (n : Nat) : toDec n ≠ [] := by
  unfold toDec
  split <;> simp

theorem toDec_all_digit (n : Nat) : ∀ c ∈ toDec n, c.isDigit = true := by
  induction n using Nat.strong_induction_on with
  | _ n ih =>
    unfold toDec
    split
    · next h =>
      intro c hc
      rw [List.mem_singleton] at hc
      subst hc
      exact digitChar_isDigit n h
    · next h =>
      intro c hc
      rcases List.mem_append.mp hc with hc | hc
      · exact ih (n / 10)
          (Nat.div_lt_self
            (Nat.lt_of_lt_of_le (by decide) (Nat.le_of_not_lt h)) (by decide))
          c hc
      · rw [List.mem_singleton] at hc
        subst hc
        exact digitChar_isDigit _ (Nat.mod_lt n (by decide))

theorem charsVal_append (l : List Char) (c : Char) :
    charsVal (l ++ [c]) = 10 * charsVal l + (c.toNat - 48) := by
  simp [charsVal, List.foldl_append]

theorem charsVal_toDec (n : Nat) : charsVal (toDec n) = n := by
  induction n using Nat.strong_induction_on with
  | _ n ih =>
    unfold toDec
    split
    · next h =>
      show charsVal [digitChar n] = n
      simp [charsVal]
      exact digitChar_val n h
    · next h =>
      rw [charsVal_append,
        ih (n / 10)
          (Nat.div_lt_self
            (Nat.lt_of_lt_of_le (by decide) (Nat.le_of_not_lt h)) (by decide)),
        digitChar_val _ (Nat.mod_lt n (by decide)), Nat.div_add_mod]

theorem takeWhile_all_append (p : Char → Bool) (l : List Char) (x : Char)
    (t : List Char) (hl : ∀ c ∈ l, p c = true) (hx : p x = false) :
    (l ++ x :: t).takeWhile p = l ∧ (l ++ x :: t).dropWhile p = x :: t := by
  induction l with
  | nil => simp [List.takeWhile_cons, List.dropWhile_cons, hx]
  | cons a l ih =>
    have ha : p a = true := hl a (by simp)
    have h' := ih (fun c hc => hl c (by simp [hc]))
    simp [List.takeWhile_cons, List.dropWhile_cons, ha, h'.1, h'.2]

theorem matchSizeRe_toDec (n : Nat) (c : Char) (hd : c.isDigit = false)
    (ha : c.isAlpha = true) :
    matchSizeRe (toDec n ++ c :: []) = some (n, c) := by
  have h2 := takeWhile_all_append Char.isDigit (toDec n) c []
    (toDec_all_digit n) hd
  unfold matchSizeRe
  rw [h2.1, h2.2]
  simp [List.isEmpty_iff, toDec_ne_nil, ha, charsVal_toDec]

/-! ## Lemmas about the vg_present device loop -/

theorem vgDeviceLoop_trace_mono (env : VGEnv) (name : String) :
    ∀ (lst : List String) (ret : SaltRet) (tr : List MCall) (m : MCall),
      m ∈ tr → m ∈ (vgDeviceLoop env name lst ret tr).2 := by
  intro lst
  induction lst with
  | nil => intro ret tr m hm; exact hm
  | cons d rest ih =>
    intro ret tr m hm
    simp only [vgDeviceLoop]
    cases hq : env.pvQuery₁ (env.realpath d) with
    | none => exact ih _ _ _ hm
    | some g =>
      by_cases h1 : g = name
      · simp only [if_pos h1]
        exact ih _ _ _ hm
      · simp only [if_neg h1]
        by_cases h2 : g = "#orphans_lvm2"
        · simp only [if_pos h2]
          cases hq2 : env.pvQuery₂ (env.realpath d) with
          | none => exact List.mem_append_left _ hm
          | some g₂ =>
            by_cases h3 : g₂ = name
            · simp only [if_pos h3]
              exact ih _ _ _ (List.mem_append_left _ hm)
            · simp only [if_neg h3]
              exact ih _ _ _ (List.mem_append_left _ hm)
        · simp only [if_neg h2]
          exact ih _ _ _ hm

theorem vgDeviceLoop_trace_src (env : VGEnv) (name : String) :
    ∀ (lst : List String) (ret : SaltRet) (tr : List MCall) (m : MCall),
      m ∈ (vgDeviceLoop env name lst ret tr).2 →
      m ∈ tr ∨ ∃ d, d ∈ lst ∧ m = .vgextend name d ∧
        env.pvQuery₁ (env.realpath d) = some "#orphans_lvm2" := by
  intro lst
  induction lst with
  | nil => intro ret tr m hm; exact .inl hm
  | cons d rest ih =>
    intro ret tr m hm
    simp only [vgDeviceLoop] at hm
    have lift : (m ∈ tr ∨ ∃ d', d' ∈ rest ∧ m = .vgextend name d' ∧
        env.pvQuery₁ (env.realpath d') = some "#orphans_lvm2") →
        m ∈ tr ∨ ∃ d', d' ∈ d :: rest ∧ m = .vgextend name d' ∧
          env.pvQuery₁ (env.realpath d') = some "#orphans_lvm2" := by
      rintro (h | ⟨d', hd', hrest⟩)
      · exact .inl h
      · exact .inr ⟨d', List.mem_cons_of_mem _ hd', hrest⟩
    cases hq : env.pvQuery₁ (env.realpath d) with
    | none =>
      simp only [hq] at hm
      exact lift (ih _ _ _ hm)
    | some g =>
      simp only [hq] at hm
      by_cases h1 : g = name
      · rw [if_pos h1] at hm
        exact lift (ih _ _ _ hm)
      · rw [if_neg h1] at hm
        by_cases h2 : g = "#orphans_lvm2"
        · rw [if_pos h2] at hm
          subst h2
          have orph : ∀ m', m' ∈ tr ++ [MCall.vgextend name d] →
              m' ∈ tr ∨ ∃ d', d' ∈ d :: rest ∧ m' = .vgextend name d' ∧
                env.pvQuery₁ (env.realpath d') = some "#orphans_lvm2" := by
            intro m' hm'
            rcases List.mem_append.mp hm' with h | h
            · exact .inl h
            · rw [List.mem_singleton] at h
              exact .inr ⟨d, List.mem_cons_self d rest, h, hq⟩
          cases hq2 : env.pvQuery₂ (env.realpath d) with
          | none =>
            simp only [hq2] at hm
            exact orph m hm
          | some g₂ =>
            simp only [hq2] at hm
            by_cases h3 : g₂ = name
            · rw [if_pos h3] at hm
              rcases ih _ _ _ hm with h | ⟨d', hd', hrest⟩
              · exact orph m h
              · exact .inr ⟨d', List.mem_cons_of_mem _ hd', hrest⟩
            · rw [if_neg h3] at hm
              rcases ih _ _ _ hm with h | ⟨d', hd', hrest⟩
              · exact orph m h
              · exact .inr ⟨d', List.mem_cons_of_mem _ hd', hrest⟩
        · rw [if_neg h2] at hm
          exact lift (ih _ _ _ hm)

theorem vgDeviceLoop_false_stays (env : VGEnv) (name : String) :
    ∀ (lst : List String) (ret : SaltRet) (tr : List MCall) (r' : SaltRet),
      ret.result = some false →
      (vgDeviceLoop env name lst ret tr).1 = .ok r' → r'.result = some false := by
  intro lst
  induction lst with
  | nil =>
    intro ret tr r' hres h
    cases h
    exact hres
  | cons d rest ih =>
    intro ret tr r' hres h
    simp only [vgDeviceLoop] at h
    cases hq : env.pvQuery₁ (env.realpath d) with
    | none =>
      simp only [hq] at h
      exact ih _ _ _ rfl h
    | some g =>
      simp only [hq] at h
      by_cases h1 : g = name
      · rw [if_pos h1] at h
        refine ih _ _ _ ?_ h
        exact hres
      · rw [if_neg h1] at h
        by_cases h2 : g = "#orphans_lvm2"
        · rw [if_pos h2] at h
          cases hq2 : env.pvQuery₂ (env.realpath d) with
          | none =>
            simp only [hq2] at h
            simp at h
          | some g₂ =>
            simp only [hq2] at h
            by_cases h3 : g₂ = name
            · rw [if_pos h3] at h
              refine ih _ _ _ ?_ h
              exact hres
            · rw [if_neg h3] at h
              exact ih _ _ _ rfl h
        · rw [if_neg h2] at h
          exact ih _ _ _ rfl h

theorem vgDeviceLoop_failing_mem (env : VGEnv) (name : String) :
    ∀ (lst : List String) (ret : SaltRet) (tr : List MCall) (r' : SaltRet)
      (d : String), d ∈ lst →
      (env.pvQuery₁ (env.realpath d) = none ∨
        ∃ g, env.pvQuery₁ (env.realpath d) = some g ∧ g ≠ name ∧
          g ≠ "#orphans_lvm2") →
      (vgDeviceLoop env name lst ret tr).1 = .ok r' → r'.result = some false := by
  intro lst
  induction lst with
  | nil =>
    intro ret tr r' d hd
    exact absurd hd (List.not_mem_nil d)
  | cons a rest ih =>
    intro ret tr r' d hd hP h
    simp only [vgDeviceLoop] at h
    rcases List.mem_cons.mp hd with hda | hdr
    · subst hda
      rcases hP with hq | ⟨g, hq, hg1, hg2⟩
      · simp only [hq] at h
        exact vgDeviceLoop_false_stays env name _ _ _ _ rfl h
      · simp only [hq] at h
        rw [if_neg hg1, if_neg hg2] at h
        exact vgDeviceLoop_false_stays env name _ _ _ _ rfl h
    · cases hq : env.pvQuery₁ (env.realpath a) with
      | none =>
        simp only [hq] at h
        exact ih _ _ _ _ hdr hP h
      | some g =>
        simp only [hq] at h
        by_cases h1 : g = name
        · rw [if_pos h1] at h
          exact ih _ _ _ _ hdr hP h
        · rw [if_neg h1] at h
          by_cases h2 : g = "#orphans_lvm2"
          · rw [if_pos h2] at h
            cases hq2 : env.pvQuery₂ (env.realpath a) with
            | none =>
              simp only [hq2] at h
              simp at h
            | some g₂ =>
              simp only [hq2] at h
              by_cases h3 : g₂ = name
              · rw [if_pos h3] at h
                exact ih _ _ _ _ hdr hP h
              · rw [if_neg h3] at h
                exact ih _ _ _ _ hdr hP h
          · rw [if_neg h2] at h
            exact ih _ _ _ _ hdr hP h

theorem vgDeviceLoop_comment_ext (env : VGEnv) (name : String) :
    ∀ (lst : List String) (ret : SaltRet) (tr : List MCall) (r' : SaltRet),
      (vgDeviceLoop env name lst ret tr).1 = .ok r' →
      ∃ s, r'.comment = ret.comment ++ s := by
  intro lst
  induction lst with
  | nil =>
    intro ret tr r' h
    cases h
    exact ⟨"", by simp⟩
  | cons d rest ih =>
    intro ret tr r' h
    simp only [vgDeviceLoop] at h
    cases hq : env.pvQuery₁ (env.realpath d) with
    | none =>
      simp only [hq] at h
      rcases ih _ _ _ h with ⟨s, hs⟩
      exact ⟨"\n" ++ ("pv " ++ d ++ " is not present") ++ s,
        by rw [hs]; simp [String.append_assoc]⟩
    | some g =>
      simp only [hq] at h
      by_cases h1 : g = name
      · rw [if_pos h1] at h
        rcases ih _ _ _ h with ⟨s, hs⟩
        exact ⟨"\n" ++ (d ++ " is part of Volume Group") ++ s,
          by rw [hs]; simp [String.append_assoc]⟩
      · rw [if_neg h1] at h
        by_cases h2 : g = "#orphans_lvm2"
        · rw [if_pos h2] at h
          cases hq2 : env.pvQuery₂ (env.realpath d) with
          | none =>
            simp only [hq2] at h
            simp at h
          | some g₂ =>
            simp only [hq2] at h
            by_cases h3 : g₂ = name
            · rw [if_pos h3] at h
              rcases ih _ _ _ h with ⟨s, hs⟩
              exact ⟨s, hs⟩
            · rw [if_neg h3] at h
              rcases ih _ _ _ h with ⟨s, hs⟩
              exact ⟨"\n" ++ (d ++ " could not be added") ++ s,
                by rw [hs]; simp [String.append_assoc]⟩
        · rw [if_neg h2] at h
          rcases ih _ _ _ h with ⟨s, hs⟩
          exact ⟨"\n" ++ (d ++ " is part of " ++ g) ++ s,
            by rw [hs]; simp [String.append_assoc]⟩

theorem vgDeviceLoop_append_ok (env : VGEnv) (name : String) :
    ∀ (l₁ l₂ : List String) (ret : SaltRet) (tr : List MCall) (r₁ : SaltRet)
      (t₁ : List MCall),
      vgDeviceLoop env name l₁ ret tr = (.ok r₁, t₁) →
      vgDeviceLoop env name (l₁ ++ l₂) ret tr = vgDeviceLoop env name l₂ r₁ t₁ := by
  intro l₁
  induction l₁ with
  | nil =>
    intro l₂ ret tr r₁ t₁ h
    cases h
    rfl
  | cons d rest ih =>
    intro l₂ ret tr r₁ t₁ h
    simp only [vgDeviceLoop] at h
    simp only [List.cons_append, vgDeviceLoop]
    cases hq : env.pvQuery₁ (env.realpath d) with
    | none =>
      simp only [hq] at h
      dsimp only
      exact ih _ _ _ _ _ h
    | some g =>
      simp only [hq] at h
      dsimp only
      by_cases h1 : g = name
      · rw [if_pos h1] at h
        rw [if_pos h1]
        exact ih _ _ _ _ _ h
      · rw [if_neg h1] at h
        rw [if_neg h1]
        by_cases h2 : g = "#orphans_lvm2"
        · rw [if_pos h2] at h
          rw [if_pos h2]
          cases hq2 : env.pvQuery₂ (env.realpath d) with
          | none =>
            simp only [hq2] at h
            simp at h
          | some g₂ =>
            simp only [hq2] at h
            dsimp only
            by_cases h3 : g₂ = name
            · rw [if_pos h3] at h
              rw [if_pos h3]
              exact ih _ _ _ _ _ h
            · rw [if_neg h3] at h
              rw [if_neg h3]
              exact ih _ _ _ _ _ h
        · rw [if_neg h2] at h
          rw [if_neg h2]
          exact ih _ _ _ _ _ h

theorem vgDeviceLoop_orphan_extends (env : VGEnv) (name : String)
    (hname : name ≠ "#orphans_lvm2") :
    ∀ (lst : List String) (ret : SaltRet) (tr : List MCall) (r' : SaltRet)
      (t' : List MCall) (d : String), d ∈ lst →
      env.pvQuery₁ (env.realpath d) = some "#orphans_lvm2" →
      vgDeviceLoop env name lst ret tr = (.ok r', t') →
      MCall.vgextend name d ∈ t' := by
  intro lst
  induction lst with
  | nil =>
    intro ret tr r' t' d hd
    exact absurd hd (List.not_mem_nil d)
  | cons a rest ih =>
    intro ret tr r' t' d hd hq h
    simp only [vgDeviceLoop] at h
    rcases List.mem_cons.mp hd with hda | hdr
    · subst hda
      simp only [hq] at h
      rw [if_neg (fun he => hname he.symm)] at h
      simp only [if_true] at h
      have hmem : MCall.vgextend name d ∈ tr ++ [MCall.vgextend name d] :=
        List.mem_append_right _ (List.mem_singleton.mpr rfl)
      cases hq2 : env.pvQuery₂ (env.realpath d) with
      | none =>
        simp only [hq2] at h
        simp at h
      | some g₂ =>
        simp only [hq2] at h
        by_cases h3 : g₂ = name
        · rw [if_pos h3] at h
          have h2' := congrArg Prod.snd h
          dsimp only at h2'
          rw [← h2']
          exact vgDeviceLoop_trace_mono env name rest _ _ _ hmem
        · rw [if_neg h3] at h
          have h2' := congrArg Prod.snd h
          dsimp only at h2'
          rw [← h2']
          exact vgDeviceLoop_trace_mono env name rest _ _ _ hmem
    · cases hqa : env.pvQuery₁ (env.realpath a) with
      | none =>
        simp only [hqa] at h
        exact ih _ _ _ _ _ hdr hq h
      | some g =>
        simp only [hqa] at h
        by_cases h1 : g = name
        · rw [if_pos h1] at h
          exact ih _ _ _ _ _ hdr hq h
        · rw [if_neg h1] at h
          by_cases h2 : g = "#orphans_lvm2"
          · rw [if_pos h2] at h
            cases hq2 : env.pvQuery₂ (env.realpath a) with
            | none =>
              simp only [hq2] at h
              simp at h
            | some g₂ =>
              simp only [hq2] at h
              by_cases h3 : g₂ = name
              · rw [if_pos h3] at h
                exact ih _ _ _ _ _ hdr hq h
              · rw [if_neg h3] at h
                exact ih _ _ _ _ _ hdr hq h
          · rw [if_neg h2] at h
            exact ih _ _ _ _ _ hdr hq h

theorem vgDeviceLoop_member_all (env : VGEnv) (name : String) :
    ∀ (lst : List String) (ret : SaltRet) (tr : List MCall),
      (∀ d ∈ lst, env.pvQuery₁ (env.realpath d) = some name) →
      ∃ c, vgDeviceLoop env name lst ret tr =
        (.ok { ret with comment := c }, tr) := by
  intro lst
  induction lst with
  | nil => intro ret tr _; exact ⟨ret.comment, rfl⟩
  | cons d rest ih =>
    intro ret tr hall
    have hq : env.pvQuery₁ (env.realpath d) = some name :=
      hall d (List.mem_cons_self d rest)
    simp only [vgDeviceLoop]
    rw [hq]
    dsimp only
    rw [if_pos rfl]
    rcases ih { ret with comment :=
        ret.comment ++ "\n" ++ (d ++ " is part of Volume Group") } tr
      (fun d' hd' => hall d' (List.mem_cons_of_mem _ hd')) with ⟨c, hc⟩
    exact ⟨c, hc⟩

/-- C6: lv_present's size parsing maps `str(n) + "G"` to `n*1024*1024` kB,
`str(n) + "T"` to `n*1024*1024*1024` kB and `str(n) + "M"` to `n*1024` kB
by exact integer power-of-1024 multiplication, with the claimed concrete
values for `"10G"`, `"1T"` and `"512M"`. -/
theorem c6_size_parsing :
    (∀ n : Nat, lvSizeNumerical (pyStr n ++ "G") = .ok (n * 1024 * 1024)) ∧
    (∀ n : Nat, lvSizeNumerical (pyStr n ++ "T") = .ok (n * 1024 * 1024 * 1024)) ∧
    (∀ n : Nat, lvSizeNumerical (pyStr n ++ "M") = .ok (n * 1024)) ∧
    lvSizeNumerical "10G" = .ok 10485760 ∧
    lvSizeNumerical "1T" = .ok 1073741824 ∧
    lvSizeNumerical "512M" = .ok 524288 := by
  refine ⟨fun n => ?_, fun n => ?_, fun n => ?_, rfl, rfl, rfl⟩ <;>
    · unfold lvSizeNumerical
      rw [show (pyStr n ++ _).data = toDec n ++ _ :: [] from String.data_append ..,
        matchSizeRe_toDec n _ (by decide) (by decide)]
      simp

/-! ## Lemmas about the mailman steps -/

theorem vgDeviceLoop_append_err (env : VGEnv) (name : String) :
    ∀ (l₁ l₂ : List String) (ret : SaltRet) (tr : List MCall) (e : PyErr)
      (t₁ : List MCall),
      vgDeviceLoop env name l₁ ret tr = (.error e, t₁) →
      vgDeviceLoop env name (l₁ ++ l₂) ret tr = (.error e, t₁) := by
  intro l₁
  induction l₁ with
  | nil =>
    intro l₂ ret tr e t₁ h
    simp only [vgDeviceLoop] at h
    exact absurd h (by simp)
  | cons d rest ih =>
    intro l₂ ret tr e t₁ h
    simp only [vgDeviceLoop] at h
    simp only [List.cons_append, vgDeviceLoop]
    cases hq : env.pvQuery₁ (env.realpath d) with
    | none =>
      simp only [hq] at h
      dsimp only
      exact ih _ _ _ _ _ h
    | some g =>
      simp only [hq] at h
      dsimp only
      by_cases h1 : g = name
      · rw [if_pos h1] at h
        rw [if_pos h1]
        exact ih _ _ _ _ _ h
      · rw [if_neg h1] at h
        rw [if_neg h1]
        by_cases h2 : g = "#orphans_lvm2"
        · rw [if_pos h2] at h
          rw [if_pos h2]
          cases hq2 : env.pvQuery₂ (env.realpath d) with
          | none =>
            simp only [hq2] at h
            simp only [hq2]
            exact h
          | some g₂ =>
            simp only [hq2] at h
            dsimp only
            by_cases h3 : g₂ = name
            · rw [if_pos h3] at h
              rw [if_pos h3]
              exact ih _ _ _ _ _ h
            · rw [if_neg h3] at h
              rw [if_neg h3]
              exact ih _ _ _ _ _ h
        · rw [if_neg h2] at h
          rw [if_neg h2]
          exact ih _ _ _ _ _ h

theorem ownerRemoveLoop_subset (salt lst : List String)
    (hsub : ∀ o ∈ lst, o ∈ salt) :
    ∀ (fuel i : Nat) (upd : Bool),
      ownerRemoveLoop salt fuel i lst upd = (lst, upd) := by
  intro fuel
  induction fuel with
  | zero => intro i upd; rfl
  | succ fuel ih =>
    intro i upd
    simp only [ownerRemoveLoop]
    split
    · next hi =>
      rw [if_pos (hsub _ (lst.get_mem i hi))]
      exact ih (i + 1) upd
    · rfl

theorem ownerAddLoop_subset :
    ∀ (salt mm : List String) (upd : Bool), (∀ o ∈ salt, o ∈ mm) →
      ownerAddLoop salt mm upd = (mm, upd) := by
  intro salt
  induction salt with
  | nil => intro mm upd _; rfl
  | cons a salt ih =>
    intro mm upd hsub
    have ha : a ∈ mm := hsub a (List.mem_cons_self a salt)
    show List.foldl _ _ (a :: salt) = (mm, upd)
    rw [List.foldl_cons]
    dsimp only
    rw [if_pos ha]
    exact ih mm upd (fun o ho => hsub o (List.mem_cons_of_mem _ ho))

theorem stepExistence_present (opts : Opts) (env : MMEnv) (name : String)
    (h : env.present₁ = true) :
    ∀ ret, stepExistence opts env name ret = .cont ret [] := by
  intro ret
  simp [stepExistence, h]

theorem stepTestReturn_cont (opts : Opts) (env : MMEnv)
    (h : (!env.present₂ && opts.test) = false) :
    ∀ ret, stepTestReturn opts env ret = .cont ret [] := by
  intro ret
  simp [stepTestReturn, h]

theorem stepTestReturn_stop (opts : Opts) (env : MMEnv)
    (h : (!env.present₂ && opts.test) = true) :
    ∀ ret, stepTestReturn opts env ret = .stop ret [] := by
  intro ret
  simp [stepTestReturn, h]

theorem stepPassword_checked (opts : Opts) (env : MMEnv) (name : String)
    (kw : ListKwargs) (h : kw.password.isSome → env.checkPw = true) :
    ∀ ret, stepPassword opts env name kw ret = .cont ret [] := by
  intro ret
  cases hp : kw.password with
  | none => simp [stepPassword, hp]
  | some pw =>
    have hc := h (by simp [hp])
    simp [stepPassword, hp, hc]

theorem stepOwner_synced (opts : Opts) (env : MMEnv) (name : String)
    (kw : ListKwargs)
    (h : ∀ arg, kw.owner = some arg →
      (∀ o ∈ env.mmOwner, o ∈ ownerArgList arg) ∧
      (∀ o ∈ ownerArgList arg, o ∈ env.mmOwner)) :
    ∀ ret, stepOwner opts env name kw ret = .cont ret [] := by
  intro ret
  cases ho : kw.owner with
  | none => simp [stepOwner, ho]
  | some arg =>
    have e1 : ownerRemoveLoop (ownerArgList arg) env.mmOwner.length 0
        env.mmOwner false = (env.mmOwner, false) :=
      ownerRemoveLoop_subset _ _ (h arg ho).1 _ _ _
    have e2 : ownerAddLoop (ownerArgList arg) env.mmOwner false =
        (env.mmOwner, false) :=
      ownerAddLoop_subset _ _ _ (h arg ho).2
    simp [stepOwner, ho, e1, e2]

theorem stepMembersPresent_all (opts : Opts) (env : MMEnv) (name : String)
    (kw : ListKwargs)
    (h : ∀ ms, kw.membersPresent = some ms → ∀ m ∈ ms, env.isMember₁ m = true) :
    ∀ ret, stepMembersPresent opts env name kw ret = .cont ret [] := by
  intro ret
  cases hm : kw.membersPresent with
  | none => simp [stepMembersPresent, hm]
  | some ms =>
    have hfil : ms.filter (fun m => !env.isMember₁ m) = [] :=
      List.filter_eq_nil_iff.mpr (fun m hm' => by simp [h ms hm m hm'])
    simp [stepMembersPresent, hm, hfil]

theorem stepMembersAbsent_none (opts : Opts) (env : MMEnv) (name : String)
    (kw : ListKwargs)
    (h : ∀ ms, kw.membersAbsent = some ms → ∀ m ∈ ms, env.isMember₂ m = false) :
    ∀ ret, stepMembersAbsent opts env name kw ret = .cont ret [] := by
  intro ret
  cases hm : kw.membersAbsent with
  | none => simp [stepMembersAbsent, hm]
  | some ms =>
    have hfil : ms.filter (fun m => env.isMember₂ m) = [] :=
      List.filter_eq_nil_iff.mpr (fun m hm' => by simp [h ms hm m hm'])
    simp [stepMembersAbsent, hm, hfil]

theorem stepExplicit_synced (opts : Opts) (env : MMEnv) (name : String)
    (kw : ListKwargs)
    (hkey : kw.explicitKey = true → ∃ ms, kw.membersPresent = some ms)
    (hall : ∀ ms, kw.membersPresent = some ms →
      ∀ a ∈ env.listMembers₃, a ∈ ms.map pyParseaddrAddr) :
    ∀ ret, stepExplicit opts env name kw ret = .cont ret [] := by
  intro ret
  cases hex : kw.explicitKey with
  | false => simp [stepExplicit, hex]
  | true =>
    rcases hkey hex with ⟨ms, hms⟩
    have hfil : env.listMembers₃.filter
        (fun a => !(ms.map pyParseaddrAddr).contains a) = [] :=
      List.filter_eq_nil_iff.mpr (fun a ha => by
        simpa using hall ms hms a ha)
    simp only [stepExplicit, hex, hms]
    rw [hfil]
    simp

theorem mailmanListPresent_converged (opts : Opts) (env : MMEnv)
    (name : String) (kw : ListKwargs)
    (hp : env.present₁ = true)
    (hpw : kw.password.isSome → env.checkPw = true)
    (how : ∀ arg, kw.owner = some arg →
      (∀ o ∈ env.mmOwner, o ∈ ownerArgList arg) ∧
      (∀ o ∈ ownerArgList arg, o ∈ env.mmOwner))
    (hmp : ∀ ms, kw.membersPresent = some ms →
      ∀ m ∈ ms, env.isMember₁ m = true)
    (hma : ∀ ms, kw.membersAbsent = some ms →
      ∀ m ∈ ms, env.isMember₂ m = false)
    (hkey : kw.explicitKey = true → ∃ ms, kw.membersPresent = some ms)
    (hexp : ∀ ms, kw.membersPresent = some ms →
      ∀ a ∈ env.listMembers₃, a ∈ ms.map pyParseaddrAddr) :
    mailmanListPresent opts env name kw =
      (.ok { changes := [],
             comment := "List " ++ name ++ " is in the correct state",
             name := name, result := some true }, []) := by
  unfold mailmanListPresent
  cases ht : (!env.present₂ && opts.test) with
  | true =>
    simp only [stepExistence_present opts env name hp, thenStep_cont_nil,
      stepTestReturn_stop opts env ht, thenStep_stop]
    rfl
  | false =>
    simp only [stepExistence_present opts env name hp, thenStep_cont_nil,
      stepTestReturn_cont opts env ht,
      stepPassword_checked opts env name kw hpw,
      stepOwner_synced opts env name kw how,
      stepMembersPresent_all opts env name kw hmp,
      stepMembersAbsent_none opts env name kw hma,
      stepExplicit_synced opts env name kw hkey hexp]
    rfl

/-! ## Claim theorems -/

/-- C1: the claim says that under dry-run (`__opts__['test']`) no mutate
primitive is ever invoked on any code path.  The code violates this:
with `test = true`, `vg_present` on an existing volume group still
invokes `vgextend` for an orphaned device, and `lv_present` on an
existing undersized volume still invokes `lvresize`.  This theorem
evaluates both state functions at such failing inputs and exhibits the
non-empty mutate traces produced under dry-run. -/
theorem c1_dry_run_mutates :
    (vgPresent { test := true }
      { display₁ := true, realpath := id,
        pvQuery₁ := fun _ => some "#orphans_lvm2",
        pvQuery₂ := fun _ => some "vg0",
        createChanges := "", display₂ := true }
      "vg0" (.devs ["/dev/sda"])).2 = [MCall.vgextend "vg0" "/dev/sda"] ∧
    (lvPresent { test := true }
      { lvdisplay₁ := true, lvExtents₁ := 10, peSize := 4096,
        lvExtents₂ := 2560, createChanges := "", lvdisplay₂ := true }
      "lv0" "vg0" (some "10G") none false true).2 =
      [MCall.lvresize "10G" "/dev/vg0/lv0"] :=
  ⟨rfl, rfl⟩

/-- C2 (counterexample): the claim says that as soon as any step sets
`result = False` the function returns immediately with no further
primitive invocations.  In `vg_present`'s device loop this is false: with
devices `["/dev/d1", "/dev/d2"]` where `/dev/d1` belongs to a foreign
group (setting `result = False`) and `/dev/d2` is an orphan, the run
still invokes `vgextend` on `/dev/d2` afterwards.  The second conjunct
shows that processing `/dev/d1` alone already yields `result = False`
with no mutate call, so the `vgextend` of the first run happens after
the failure. -/
theorem c2_counterexample :
    (vgPresent { test := false }
      { display₁ := true, realpath := id,
        pvQuery₁ := fun dev => if dev = "/dev/d1" then some "othervg"
          else some "#orphans_lvm2",
        pvQuery₂ := fun _ => some "vg0",
        createChanges := "", display₂ := true }
      "vg0" (.devs ["/dev/d1", "/dev/d2"])).2 =
        [MCall.vgextend "vg0" "/dev/d2"] ∧
    (vgPresent { test := false }
      { display₁ := true, realpath := id,
        pvQuery₁ := fun dev => if dev = "/dev/d1" then some "othervg"
          else some "#orphans_lvm2",
        pvQuery₂ := fun _ => some "vg0",
        createChanges := "", display₂ := true }
      "vg0" (.devs ["/dev/d1"])) =
      (.ok { changes := [],
             comment := "Volume Group vg0 already present\n/dev/d1 is part of othervg",
             name := "vg0", result := some false }, []) :=
  ⟨rfl, rfl⟩

/-- C2 (amended): if creation of an absent resource fails, the
reconciliation pass ends with `result = False` and the creation call is
the only primitive invoked — no attribute-reconciliation primitive
follows — for `mailman.list_present`, `rbm_lvm.vg_present` and
`rbm_lvm.lv_present`.  (The original claim's stronger statement, that
every step setting `result = False` returns immediately, fails for
`vg_present`'s device loop; see the counterexample.) -/
theorem c2_creation_fail_fast :
    (∀ (opts : Opts) (env : MMEnv) (name : String) (kw : ListKwargs),
      opts.test = false → env.present₁ = false → env.addListOk = false →
      mailmanListPresent opts env name kw =
        (.ok { changes := [], comment := "Failed to create list " ++ name,
               name := name, result := some false }, [.addList name])) ∧
    (∀ (opts : Opts) (env : VGEnv) (name : String) (devices : DevArg),
      opts.test = false → env.display₁ = false → env.display₂ = false →
      vgPresent opts env name devices =
        (.ok { changes := [],
               comment := "Failed to create Volume Group " ++ name,
               name := name, result := some false },
          [.vgcreate name (devList devices)])) ∧
    (∀ (opts : Opts) (env : LVEnv) (name vgname : String)
      (size snapshot : Option String) (thin ar : Bool),
      opts.test = false → env.lvdisplay₁ = false → env.lvdisplay₂ = false →
      lvPresent opts env name vgname size snapshot thin ar =
        (.ok { changes := [],
               comment := "Failed to create Logical Volume " ++
                 snapshot.getD name,
               name := name, result := some false },
          [.lvcreate (snapshot.getD name) vgname size])) := by
  refine ⟨?_, ?_, ?_⟩
  · intro opts env name kw ht hp ha
    simp [mailmanListPresent, stepExistence, hp, ht, ha, thenStep, finalize]
  · intro opts env name devices ht h1 h2
    simp [vgPresent, ht, h1, h2]
  · intro opts env name vgname size snapshot thin ar ht h1 h2
    cases snapshot <;> simp [lvPresent, ht, h1, h2]

/-- C2 witness: the amended fail-fast theorem applied at concrete
failing-creation inputs for all three state functions. -/
theorem c2_creation_fail_fast_witness :
    mailmanListPresent { test := false }
      { present₁ := false, addListOk := false, present₂ := false,
        checkPw := true, setPwOk := true, mmOwner := [], setOwnerOk := true,
        isMember₁ := fun _ => false, addMemberOk := true,
        isMember₂ := fun _ => false, removeMemberOk := true,
        listMembers₃ := [], removeMemberOk₂ := true } "mylist" {} =
      (.ok { changes := [], comment := "Failed to create list mylist",
             name := "mylist", result := some false }, [.addList "mylist"]) ∧
    vgPresent { test := false }
      { display₁ := false, realpath := id, pvQuery₁ := fun _ => none,
        pvQuery₂ := fun _ => none, createChanges := "", display₂ := false }
      "vg0" (.devs ["/dev/sda"]) =
      (.ok { changes := [], comment := "Failed to create Volume Group vg0",
             name := "vg0", result := some false },
        [.vgcreate "vg0" (some ["/dev/sda"])]) ∧
    lvPresent { test := false }
      { lvdisplay₁ := false, lvExtents₁ := 0, peSize := 0, lvExtents₂ := 0,
        createChanges := "", lvdisplay₂ := false }
      "lv0" "vg0" (some "10G") none false true =
      (.ok { changes := [], comment := "Failed to create Logical Volume lv0",
             name := "lv0", result := some false },
        [.lvcreate "lv0" "vg0" (some "10G")]) :=
  ⟨c2_creation_fail_fast.1 _ _ _ _ rfl rfl rfl,
   c2_creation_fail_fast.2.1 _ _ _ _ rfl rfl rfl,
   c2_creation_fail_fast.2.2 _ _ _ _ _ _ _ _ rfl rfl rfl⟩

/-- C3: the claim says no exception ever propagates across the
state-function boundary.  The code violates this:
`list_present(name, explicit=...)` without a `members_present` key
raises `KeyError` on an existing list; `lv_present` on an existing
volume raises `NameError` for a size with an unknown unit letter
(`"1X"`) and `AttributeError` for a size the regex does not match
(`"G"`).  This theorem evaluates the state functions at those failing
inputs. -/
theorem c3_uncaught_exceptions :
    (mailmanListPresent { test := false }
      { present₁ := true, addListOk := true, present₂ := true,
        checkPw := true, setPwOk := true, mmOwner := [], setOwnerOk := true,
        isMember₁ := fun _ => false, addMemberOk := true,
        isMember₂ := fun _ => false, removeMemberOk := true,
        listMembers₃ := [], removeMemberOk₂ := true }
      "mylist" { explicitKey := true }).1 =
      .error (.keyError "members_present") ∧
    (lvPresent { test := false }
      { lvdisplay₁ := true, lvExtents₁ := 10, peSize := 4096,
        lvExtents₂ := 10, createChanges := "", lvdisplay₂ := true }
      "lv0" "vg0" (some "1X") none false true).1 =
      .error (.nameError "size_numerical") ∧
    (lvPresent { test := false }
      { lvdisplay₁ := true, lvExtents₁ := 10, peSize := 4096,
        lvExtents₂ := 10, createChanges := "", lvdisplay₂ := true }
      "lv0" "vg0" (some "G") none false true).1 =
      .error .attributeError :=
  ⟨rfl, rfl, rfl⟩

/-- C4: the claim says the list passed to `set_owner` is always exactly
the desired owner set.  The code violates this: the removal loop mutates
`mm_owner` while iterating over it, so removing an owner skips the next
one.  With actual owners `["c", "d"]` and desired owners `["a", "b"]`,
removing `c` skips `d`, and `set_owner` receives `["d", "a", "b"]`,
which contains `d` not in the desired set. -/
theorem c4_owner_sync_skips :
    (mailmanListPresent { test := false }
      { present₁ := true, addListOk := true, present₂ := true,
        checkPw := true, setPwOk := true, mmOwner := ["c", "d"],
        setOwnerOk := true, isMember₁ := fun _ => false, addMemberOk := true,
        isMember₂ := fun _ => false, removeMemberOk := true,
        listMembers₃ := [], removeMemberOk₂ := true }
      "mylist" { owner := some (.many ["a", "b"]) }).2 =
      [MCall.setOwner "mylist" ["d", "a", "b"]] ∧
    ("d" : String) ∉ (["a", "b"] : List String) :=
  ⟨rfl, by decide⟩

/-- C5 (counterexample): the claim says a "present" call with no
desired-attribute keys on an existing resource returns `changes = {}`
with `result = True`.  For `lv_present` this is false: on an existing
logical volume with no `size` argument the code passes `None` to
`re.match`, raising `TypeError` instead of returning a result. -/
theorem c5_counterexample :
    lvPresent { test := false }
      { lvdisplay₁ := true, lvExtents₁ := 10, peSize := 4096,
        lvExtents₂ := 10, createChanges := "", lvdisplay₂ := true }
      "lv0" "vg0" none none false false = (.error .typeError, []) :=
  rfl

/-- C5 (amended): calling a "present" state function when the actual
resource already equals the desired state returns `changes = {}` with
`result = True` and invokes no mutate primitive, in dry-run and normal
mode alike — for `pv_present`, `mailman.list_present`, `vg_present`
(with its devices supplied and all members of the group), and
`lv_present` (with a parseable `size` supplied whose value equals the
current size; with no `size` argument on an existing volume the call
raises instead, see the counterexample). -/
theorem c5_idempotence :
    (∀ (opts : Opts) (env : PVEnv) (name : String), env.display₁ = true →
      pvPresent opts env name =
        ({ changes := [],
           comment := "Physical Volume " ++ name ++ " already present",
           name := name, result := some true }, [])) ∧
    (∀ (opts : Opts) (env : MMEnv) (name : String) (kw : ListKwargs),
      env.present₁ = true →
      (kw.password.isSome → env.checkPw = true) →
      (∀ arg, kw.owner = some arg →
        (∀ o ∈ env.mmOwner, o ∈ ownerArgList arg) ∧
        (∀ o ∈ ownerArgList arg, o ∈ env.mmOwner)) →
      (∀ ms, kw.membersPresent = some ms → ∀ m ∈ ms, env.isMember₁ m = true) →
      (∀ ms, kw.membersAbsent = some ms → ∀ m ∈ ms, env.isMember₂ m = false) →
      (kw.explicitKey = true → ∃ ms, kw.membersPresent = some ms) →
      (∀ ms, kw.membersPresent = some ms →
        ∀ a ∈ env.listMembers₃, a ∈ ms.map pyParseaddrAddr) →
      mailmanListPresent opts env name kw =
        (.ok { changes := [],
               comment := "List " ++ name ++ " is in the correct state",
               name := name, result := some true }, [])) ∧
    (∀ (opts : Opts) (env : VGEnv) (name : String) (ds : List String),
      env.display₁ = true →
      (∀ d ∈ ds, env.pvQuery₁ (env.realpath d) = some name) →
      ∃ c, vgPresent opts env name (.devs ds) =
        (.ok { changes := [], comment := c, name := name,
               result := some true }, [])) ∧
    (∀ (opts : Opts) (env : LVEnv) (name vgname s : String) (t : Nat)
      (ar : Bool),
      env.lvdisplay₁ = true → lvSizeNumerical s = .ok t →
      env.lvExtents₁ * env.peSize = t →
      lvPresent opts env name vgname (some s) none false ar =
        (.ok { changes := [],
               comment := "Logical Volume " ++ name ++ " already present",
               name := name, result := some true }, [])) := by
  refine ⟨?_, ?_, ?_, ?_⟩
  · intro opts env name h
    simp [pvPresent, h]
  · intro opts env name kw hp hpw how hmp hma hkey hexp
    exact mailmanListPresent_converged opts env name kw hp hpw how hmp hma
      hkey hexp
  · intro opts env name ds h hall
    have hvg : vgPresent opts env name (.devs ds) = vgDeviceLoop env name ds
        { changes := [],
          comment := "Volume Group " ++ name ++ " already present",
          name := name, result := some true } [] := by
      simp [vgPresent, h, devList]
    rcases vgDeviceLoop_member_all env name ds
      { changes := [],
        comment := "Volume Group " ++ name ++ " already present",
        name := name, result := some true } [] hall with ⟨c, hc⟩
    exact ⟨c, by rw [hvg, hc]⟩
  · intro opts env name vgname s t ar h1 hps hsz
    simp [lvPresent, h1, hps, hsz, Nat.lt_irrefl]

/-- C5 witness: the idempotence theorem applied at converged concrete
inputs for all four state functions. -/
theorem c5_idempotence_witness :
    pvPresent { test := true }
      { display₁ := true, createChanges := "", display₂ := true }
      "/dev/sda" =
      ({ changes := [],
         comment := "Physical Volume /dev/sda already present",
         name := "/dev/sda", result := some true }, []) ∧
    mailmanListPresent { test := false }
      { present₁ := true, addListOk := true, present₂ := true,
        checkPw := true, setPwOk := true, mmOwner := [], setOwnerOk := true,
        isMember₁ := fun _ => true, addMemberOk := true,
        isMember₂ := fun _ => false, removeMemberOk := true,
        listMembers₃ := [], removeMemberOk₂ := true }
      "mylist" { password := some "pw" } =
      (.ok { changes := [],
             comment := "List mylist is in the correct state",
             name := "mylist", result := some true }, []) ∧
    (∃ c, vgPresent { test := false }
      { display₁ := true, realpath := id, pvQuery₁ := fun _ => some "vg0",
        pvQuery₂ := fun _ => none, createChanges := "", display₂ := true }
      "vg0" (.devs ["/dev/sda"]) =
      (.ok { changes := [], comment := c, name := "vg0",
             result := some true }, [])) ∧
    lvPresent { test := false }
      { lvdisplay₁ := true, lvExtents₁ := 2560, peSize := 4096,
        lvExtents₂ := 2560, createChanges := "", lvdisplay₂ := true }
      "lv0" "vg0" (some "10G") none false true =
      (.ok { changes := [],
             comment := "Logical Volume lv0 already present",
             name := "lv0", result := some true }, []) :=
  ⟨c5_idempotence.1 _ _ _ rfl,
   c5_idempotence.2.1 _ _ _ _ rfl (fun _ => rfl) (fun arg h => nomatch h)
     (fun ms h => nomatch h) (fun ms h => nomatch h) (fun h => nomatch h)
     (fun ms h => nomatch h),
   c5_idempotence.2.2.1 _ _ _ _ rfl (fun d _ => rfl),
   c5_idempotence.2.2.2 _ _ _ _ "10G" 10485760 true rfl rfl rfl⟩

/-- C7: with `allow_resize` and a parseable `size` on an existing
logical volume, if the current size (extents × physical-extent-size) is
at least the parsed size no resize is attempted; if it is strictly
smaller, exactly one `lvresize` is invoked and success is declared only
if the re-queried size equals the parsed size exactly, otherwise
`result = False` with the comment "... already present and could not
get resized". -/
theorem c7_resize_exact :
    ∀ (opts : Opts) (env : LVEnv) (name vgname s : String) (t : Nat),
      env.lvdisplay₁ = true → lvSizeNumerical s = .ok t →
      ((t ≤ env.lvExtents₁ * env.peSize →
        lvPresent opts env name vgname (some s) none false true =
          (.ok { changes := [],
                 comment := "Logical Volume " ++ name ++ " already present",
                 name := name, result := some true }, [])) ∧
      (env.lvExtents₁ * env.peSize < t →
        (lvPresent opts env name vgname (some s) none false true).2 =
          [MCall.lvresize s ("/dev/" ++ vgname ++ "/" ++ name)] ∧
        (env.lvExtents₂ * env.peSize = t →
          (lvPresent opts env name vgname (some s) none false true).1 =
            .ok { changes := [("old", .nat (env.lvExtents₁ * env.peSize)),
                              ("new", .nat (env.lvExtents₂ * env.peSize))],
                  comment := "Logical Volume " ++ name ++
                    " has been extended to " ++ s,
                  name := name, result := some true }) ∧
        (env.lvExtents₂ * env.peSize ≠ t →
          (lvPresent opts env name vgname (some s) none false true).1 =
            .ok { changes := [],
                  comment := "Logical Volume " ++ name ++
                    " already present and could not get resized",
                  name := name, result := some false }))) := by
  intro opts env name vgname s t h1 hps
  constructor
  · intro hge
    simp [lvPresent, h1, hps, Nat.not_lt.mpr hge]
  · intro hlt
    by_cases he : env.lvExtents₂ * env.peSize = t
    · refine ⟨?_, fun _ => ?_, fun hne => absurd he hne⟩
      · simp [lvPresent, h1, hps, hlt, he, setChange]
      · simp [lvPresent, h1, hps, hlt, he, setChange]
    · refine ⟨?_, fun heq => absurd heq he, fun _ => ?_⟩
      · simp [lvPresent, h1, hps, hlt, he]
      · simp [lvPresent, h1, hps, hlt, he]

/-- C7 witness: the resize theorem applied at a concrete undersized
volume (2560 extents needed, 10 present) where the resize succeeds, and
at a volume already at the desired size. -/
theorem c7_resize_exact_witness :
    (10485760 ≤ 2560 * 4096 ∧
      lvPresent { test := false }
        { lvdisplay₁ := true, lvExtents₁ := 2560, peSize := 4096,
          lvExtents₂ := 2560, createChanges := "", lvdisplay₂ := true }
        "lv0" "vg0" (some "10G") none false true =
        (.ok { changes := [],
               comment := "Logical Volume lv0 already present",
               name := "lv0", result := some true }, [])) ∧
    (10 * 4096 < 10485760 ∧
      (lvPresent { test := false }
        { lvdisplay₁ := true, lvExtents₁ := 10, peSize := 4096,
          lvExtents₂ := 2560, createChanges := "", lvdisplay₂ := true }
        "lv0" "vg0" (some "10G") none false true).2 =
        [MCall.lvresize "10G" "/dev/vg0/lv0"] ∧
      (lvPresent { test := false }
        { lvdisplay₁ := true, lvExtents₁ := 10, peSize := 4096,
          lvExtents₂ := 2560, createChanges := "", lvdisplay₂ := true }
        "lv0" "vg0" (some "10G") none false true).1 =
        .ok { changes := [("old", .nat (10 * 4096)),
                          ("new", .nat (2560 * 4096))],
              comment := "Logical Volume lv0 has been extended to 10G",
              name := "lv0", result := some true }) :=
  ⟨⟨by decide,
    (c7_resize_exact { test := false } _ "lv0" "vg0" "10G" 10485760 rfl
      rfl).1 (by decide)⟩,
   ⟨by decide,
    ((c7_resize_exact { test := false } _ "lv0" "vg0" "10G" 10485760 rfl
      rfl).2 (by decide)).1,
    (((c7_resize_exact { test := false } _ "lv0" "vg0" "10G" 10485760 rfl
      rfl).2 (by decide)).2.1 (by decide))⟩⟩

/-- C8: `list_present` with `members_present = [x, y]` and the explicit
flag, against actual membership `{x, z}` (not dry-run): `y` is added,
`z` is removed with the explicit-flag annotation, `x` is untouched, and
`changes` records exactly the `Subscribed: y` and `Unsubscribed: z
(explicit flag)` entries.  The explicit-mode cleanup queries membership
after the members-present step (the environment returns `[x, z, y]`,
with `y` already added), so the member added in the same pass is not
evicted. -/
theorem c8_explicit_membership :
    ∀ (env : MMEnv) (name x y z : String),
      env.present₁ = true →
      env.isMember₁ x = true → env.isMember₁ y = false →
      env.addMemberOk = true →
      env.listMembers₃ = [x, z, y] →
      env.removeMemberOk₂ = true →
      pyParseaddrAddr x = x → pyParseaddrAddr y = y →
      z ≠ x → z ≠ y →
      mailmanListPresent { test := false } env name
        { membersPresent := some [x, y], explicitKey := true } =
        (.ok { changes := [("Subscribed", .str (y ++ "\n")),
                           ("Unsubscribed",
                             .str (z ++ " (explicit flag)\n"))],
               comment := "List " ++ name ++ " has been updated",
               name := name, result := some true },
          [.addMember name [y], .removeMember name [z]]) := by
  intro env name x y z hp hx hy haddOk hlm hrmOk px py hzx hzy
  simp [mailmanListPresent, stepExistence, stepTestReturn, stepPassword,
    stepOwner, stepMembersPresent, stepMembersAbsent, stepExplicit,
    thenStep, finalize, appendStrChange, getChange, setChange,
    hp, hx, hy, haddOk, hlm, hrmOk, px, py, hzx, hzy]

/-- C8 witness: the explicit-membership theorem applied at concrete
addresses. -/
theorem c8_explicit_membership_witness :
    mailmanListPresent { test := false }
      { present₁ := true, addListOk := true, present₂ := true,
        checkPw := true, setPwOk := true, mmOwner := [], setOwnerOk := true,
        isMember₁ := fun m => m == "x@example.org", addMemberOk := true,
        isMember₂ := fun _ => false, removeMemberOk := true,
        listMembers₃ := ["x@example.org", "z@example.org", "y@example.org"],
        removeMemberOk₂ := true }
      "mylist"
      { membersPresent := some ["x@example.org", "y@example.org"],
        explicitKey := true } =
      (.ok { changes := [("Subscribed", .str "y@example.org\n"),
                         ("Unsubscribed",
                           .str "z@example.org (explicit flag)\n")],
             comment := "List mylist has been updated",
             name := "mylist", result := some true },
        [.addMember "mylist" ["y@example.org"],
         .removeMember "mylist" ["z@example.org"]]) :=
  c8_explicit_membership _ "mylist" "x@example.org" "y@example.org"
    "z@example.org" rfl rfl rfl rfl rfl rfl rfl rfl (by decide) (by decide)

/-- C9: on an existing volume group, a desired device whose physical
volume is owned by a different volume group yields `result = False` and
`vgextend` is never invoked on that device. -/
theorem c9_foreign_device :
    ∀ (opts : Opts) (env : VGEnv) (name : String) (ds : List String)
      (d g : String),
      env.display₁ = true → d ∈ ds →
      env.pvQuery₁ (env.realpath d) = some g → g ≠ name →
      g ≠ "#orphans_lvm2" →
      MCall.vgextend name d ∉ (vgPresent opts env name (.devs ds)).2 ∧
      ∀ ret, (vgPresent opts env name (.devs ds)).1 = .ok ret →
        ret.result = some false := by
  intro opts env name ds d g hdisp hmem hq hg1 hg2
  have hvg : vgPresent opts env name (.devs ds) = vgDeviceLoop env name ds
      { changes := [],
        comment := "Volume Group " ++ name ++ " already present",
        name := name, result := some true } [] := by
    simp [vgPresent, hdisp, devList]
  constructor
  · intro hin
    rw [hvg] at hin
    rcases vgDeviceLoop_trace_src env name ds _ _ _ hin with
      h | ⟨d', hd', heq, horph⟩
    · exact absurd h (List.not_mem_nil _)
    · injection heq with h1 hdd
      subst hdd
      rw [hq] at horph
      exact hg2 (Option.some.inj horph)
  · intro ret hret
    rw [hvg] at hret
    exact vgDeviceLoop_failing_mem env name ds _ _ _ _ hmem
      (.inr ⟨g, hq, hg1, hg2⟩) hret

/-- C9 witness: the conflict theorem applied at a concrete device owned
by another group. -/
theorem c9_foreign_device_witness :
    MCall.vgextend "vg0" "/dev/sdb" ∉
      (vgPresent { test := false }
        { display₁ := true, realpath := id,
          pvQuery₁ := fun _ => some "othervg",
          pvQuery₂ := fun _ => none, createChanges := "", display₂ := true }
        "vg0" (.devs ["/dev/sdb"])).2 ∧
    ∀ ret, (vgPresent { test := false }
        { display₁ := true, realpath := id,
          pvQuery₁ := fun _ => some "othervg",
          pvQuery₂ := fun _ => none, createChanges := "", display₂ := true }
        "vg0" (.devs ["/dev/sdb"])).1 = .ok ret →
      ret.result = some false :=
  c9_foreign_device { test := false } _ "vg0" ["/dev/sdb"] "/dev/sdb"
    "othervg" rfl (List.mem_singleton.mpr rfl) rfl (by decide) (by decide)

theorem vgDeviceLoop_missing_comment (env : VGEnv) (name : String) :
    ∀ (pre post : List String) (d : String) (ret : SaltRet)
      (tr : List MCall) (r' : SaltRet),
      env.pvQuery₁ (env.realpath d) = none →
      (vgDeviceLoop env name (pre ++ d :: post) ret tr).1 = .ok r' →
      ∃ a b, r'.comment = a ++ ("pv " ++ d ++ " is not present") ++ b := by
  intro pre post d ret tr r' hq h
  rcases hpre : vgDeviceLoop env name pre ret tr with ⟨fst, t₁⟩
  cases fst with
  | error e =>
    rw [vgDeviceLoop_append_err env name pre (d :: post) ret tr e t₁ hpre]
      at h
    simp at h
  | ok r₁ =>
    rw [vgDeviceLoop_append_ok env name pre (d :: post) ret tr r₁ t₁ hpre]
      at h
    have hstep : vgDeviceLoop env name (d :: post) r₁ t₁ =
        vgDeviceLoop env name post
          { r₁ with comment := r₁.comment ++ "\n" ++ ("pv " ++ d ++ " is not present"), result := some false } t₁ := by
      simp only [vgDeviceLoop, hq]
    rw [hstep] at h
    rcases vgDeviceLoop_comment_ext env name post _ _ _ h with ⟨s2, hs2⟩
    exact ⟨r₁.comment ++ "\n", s2, by rw [hs2]⟩

theorem vgDeviceLoop_missing_continues (env : VGEnv) (name : String)
    (hname : name ≠ "#orphans_lvm2") :
    ∀ (pre post : List String) (d : String) (ret : SaltRet)
      (tr : List MCall) (r' : SaltRet),
      env.pvQuery₁ (env.realpath d) = none →
      (vgDeviceLoop env name (pre ++ d :: post) ret tr).1 = .ok r' →
      ∀ d' ∈ post, env.pvQuery₁ (env.realpath d') = some "#orphans_lvm2" →
      MCall.vgextend name d' ∈
        (vgDeviceLoop env name (pre ++ d :: post) ret tr).2 := by
  intro pre post d ret tr r' hq h d' hd' horph
  rcases hpre : vgDeviceLoop env name pre ret tr with ⟨fst, t₁⟩
  cases fst with
  | error e =>
    rw [vgDeviceLoop_append_err env name pre (d :: post) ret tr e t₁ hpre]
      at h
    simp at h
  | ok r₁ =>
    rw [vgDeviceLoop_append_ok env name pre (d :: post) ret tr r₁ t₁ hpre]
      at h ⊢
    have hstep : vgDeviceLoop env name (d :: post) r₁ t₁ =
        vgDeviceLoop env name post
          { r₁ with comment := r₁.comment ++ "\n" ++ ("pv " ++ d ++ " is not present"), result := some false } t₁ := by
      simp only [vgDeviceLoop, hq]
    rw [hstep] at h ⊢
    rcases hrun : vgDeviceLoop env name post
        { r₁ with comment := r₁.comment ++ "\n" ++ ("pv " ++ d ++ " is not present"), result := some false } t₁ with ⟨fst2, t₂⟩
    rw [hrun] at h
    dsimp only at h ⊢
    cases fst2 with
    | error e2 => exact Except.noConfusion h
    | ok r₂ =>
      exact vgDeviceLoop_orphan_extends env name hname post _ _ _ _ d' hd'
        horph hrun

/-- C10: on an existing volume group, a desired device whose physical
volume query returns no record yields the comment `pv <device> is not
present`, `result = False`, no `vgextend` for that device, and the loop
still continues with the remaining devices (an orphaned later device is
still extended) rather than returning immediately. -/
theorem c10_missing_pv_continues :
    ∀ (opts : Opts) (env : VGEnv) (name : String) (pre post : List String)
      (d : String),
      name ≠ "#orphans_lvm2" →
      env.display₁ = true → env.pvQuery₁ (env.realpath d) = none →
      MCall.vgextend name d ∉
        (vgPresent opts env name (.devs (pre ++ d :: post))).2 ∧
      (∀ ret,
        (vgPresent opts env name (.devs (pre ++ d :: post))).1 = .ok ret →
        ret.result = some false ∧
        ∃ a b, ret.comment = a ++ ("pv " ++ d ++ " is not present") ++ b) ∧
      (∀ ret,
        (vgPresent opts env name (.devs (pre ++ d :: post))).1 = .ok ret →
        ∀ d' ∈ post, env.pvQuery₁ (env.realpath d') = some "#orphans_lvm2" →
          MCall.vgextend name d' ∈
            (vgPresent opts env name (.devs (pre ++ d :: post))).2) := by
  intro opts env name pre post d hname hdisp hq
  have hvg : vgPresent opts env name (.devs (pre ++ d :: post)) =
      vgDeviceLoop env name (pre ++ d :: post)
        { changes := [],
          comment := "Volume Group " ++ name ++ " already present",
          name := name, result := some true } [] := by
    simp [vgPresent, hdisp, devList]
  refine ⟨?_, ?_, ?_⟩
  · intro hin
    rw [hvg] at hin
    rcases vgDeviceLoop_trace_src env name _ _ _ _ hin with
      h | ⟨d', hd', heq, horph⟩
    · exact absurd h (List.not_mem_nil _)
    · injection heq with h1 hdd
      subst hdd
      rw [hq] at horph
      exact Option.noConfusion horph
  · intro ret hret
    rw [hvg] at hret
    refine ⟨?_, ?_⟩
    · exact vgDeviceLoop_failing_mem env name _ _ _ _ _
        (List.mem_append_right pre (List.mem_cons_self d post))
        (.inl hq) hret
    · exact vgDeviceLoop_missing_comment env name pre post d _ _ _ hq hret
  · intro ret hret d' hd' horph
    rw [hvg] at hret ⊢
    exact vgDeviceLoop_missing_continues env name hname pre post d _ _ _
      hq hret d' hd' horph

/-- C10 witness: the missing-physical-volume theorem applied with a
missing device followed by an orphaned device that still gets
extended. -/
theorem c10_missing_pv_continues_witness :
    (MCall.vgextend "vg0" "/dev/bad" ∉
      (vgPresent { test := false }
        { display₁ := true, realpath := id,
          pvQuery₁ := fun dev => if dev = "/dev/bad" then none
            else some "#orphans_lvm2",
          pvQuery₂ := fun _ => some "vg0", createChanges := "",
          display₂ := true }
        "vg0" (.devs ([] ++ "/dev/bad" :: ["/dev/sdc"]))).2) ∧
    (∀ ret,
      (vgPresent { test := false }
        { display₁ := true, realpath := id,
          pvQuery₁ := fun dev => if dev = "/dev/bad" then none
            else some "#orphans_lvm2",
          pvQuery₂ := fun _ => some "vg0", createChanges := "",
          display₂ := true }
        "vg0" (.devs ([] ++ "/dev/bad" :: ["/dev/sdc"]))).1 = .ok ret →
      ret.result = some false ∧
      ∃ a b, ret.comment = a ++ ("pv /dev/bad is not present") ++ b) :=
  ⟨(c10_missing_pv_continues { test := false } _ "vg0" [] ["/dev/sdc"]
      "/dev/bad" (by decide) rfl rfl).1,
   (c10_missing_pv_continues { test := false } _ "vg0" [] ["/dev/sdc"]
      "/dev/bad" (by decide) rfl rfl).2.1⟩

end SaltModules
